import Mathlib

/-!
Shallow embedding of the manga-crawler data model and operations
(src/page.py, src/chapter.py, src/manga.py, src/crawl.py).

Python objects become Lean structures; in-place mutation becomes explicit
state passing (functions return the updated value); code that raises
becomes `Except`-valued or returns the partially-updated state paired with
an optional error.  Network fetches and downloads are parameters (oracles)
supplied to the functions that perform them.
-/

namespace MangaCrawler

/-- A JSON value, the target of `toDict` serialization and the source of
`fromJson` deserialization (Python dicts/lists/str/int/bool/None). -/
inductive JVal where
  | null : JVal
  | str : String → JVal
  | nat : Nat → JVal
  | bool : Bool → JVal
  | arr : List JVal → JVal
  | obj : List (String × JVal) → JVal
deriving Repr

/-- Model of `Page` (src/page.py): the page of a manga.  The weak reference to the
parent chapter is not modelled (memory management); the denormalized
`chapterNum` and `mangaTitle` copies that the constructor takes from the
parent are. -/
structure Page where
  chapterNum : Nat
  mangaTitle : Option String
  num : Nat
  pageUrl : String
  imageUrl : Option String
  filePath : Option String
  filename : Option String
  isDownloaded : Bool
  isProcessed : Bool
deriving DecidableEq, Repr

/-- Model of `Chapter` (src/chapter.py): the chapter of a manga.  `dirCache` models
the `_directoryName` cache field; the weakref to the parent manga is not
modelled, its denormalized `mangaTitle` copy is. -/
structure Chapter where
  mangaTitle : Option String
  num : Nat
  url : String
  title : Option String
  dirCache : Option String
  pages : List Page
deriving DecidableEq, Repr

/-- Model of `Manga` (src/manga.py): the manga to be downloaded.  `dirCache` models
the `_directoryName` cache field; the `_cacheLock` threading lock is not
modelled. -/
structure Manga where
  url : String
  title : Option String
  chapters : List Chapter
  dirCache : Option String
deriving DecidableEq, Repr

/-- Constructor `Manga.__init__` (src/manga.py lines 33-43): the `_directoryName`
cache starts empty. -/
def Manga.make (url : String) (title : Option String) (chapters : List Chapter) : Manga :=
  { url := url, title := title, chapters := chapters, dirCache := none }

/-- Constructor `Chapter.__init__` (src/chapter.py lines 33-43): copies the parent
manga's title into `mangaTitle`; the `_directoryName` cache starts empty. -/
def Chapter.make (manga : Manga) (num : Nat) (url : String)
    (title : Option String) (pages : List Page) : Chapter :=
  { mangaTitle := manga.title, num := num, url := url, title := title,
    dirCache := none, pages := pages }

/-- Constructor `Page.__init__` (src/page.py lines 37-48): copies `chapter.num` and
`chapter.mangaTitle`; `isProcessed` is always initialized to `false`. -/
def Page.make (chapter : Chapter) (num : Nat) (pageUrl : String)
    (imageUrl : Option String) (filePath : Option String)
    (filename : Option String) (isDownloaded : Bool) : Page :=
  { chapterNum := chapter.num, mangaTitle := chapter.mangaTitle, num := num,
    pageUrl := pageUrl, imageUrl := imageUrl, filePath := filePath,
    filename := filename, isDownloaded := isDownloaded, isProcessed := false }

/-! ### Serialization (`toDict`) -/

/-- An optional string as a JSON value (Python `None` serializes to `null`). -/
def optStr : Option String → JVal
  | none => JVal.null
  | some s => JVal.str s

/-- Serializer `Page.toDict` (src/page.py lines 246-258). -/
def Page.toDict (p : Page) : JVal :=
  JVal.obj [
    ("num", JVal.nat p.num),
    ("pageUrl", JVal.str p.pageUrl),
    ("imageUrl", optStr p.imageUrl),
    ("filePath", optStr p.filePath),
    ("filename", optStr p.filename),
    ("isDownloaded", JVal.bool p.isDownloaded)]

/-- Serializer `Chapter.toDict` (src/chapter.py lines 276-286). -/
def Chapter.toDict (c : Chapter) : JVal :=
  JVal.obj [
    ("num", JVal.nat c.num),
    ("url", JVal.str c.url),
    ("title", optStr c.title),
    ("pages", JVal.arr (c.pages.map Page.toDict))]

/-- Serializer `Manga.toDict` (src/manga.py lines 330-339). -/
def Manga.toDict (m : Manga) : JVal :=
  JVal.obj [
    ("url", JVal.str m.url),
    ("title", optStr m.title),
    ("chapters", JVal.arr (m.chapters.map Chapter.toDict))]

/-! ### Deserialization (`fromJson`) -/

/-- Python `jsonData[key]` on a JSON object: `KeyError` when missing. -/
def JVal.lookupKey (j : JVal) (key : String) : Except String JVal :=
  match j with
  | JVal.obj kvs =>
    match kvs.find? (fun kv => kv.fst = key) with
    | some kv => Except.ok kv.snd
    | none => Except.error "KeyError"
  | _ => Except.error "TypeError"

/-- Decode a JSON string field. -/
def JVal.asStr : JVal → Except String String
  | JVal.str s => Except.ok s
  | _ => Except.error "TypeError"

/-- Decode a JSON string-or-null field. -/
def JVal.asOptStr : JVal → Except String (Option String)
  | JVal.null => Except.ok none
  | JVal.str s => Except.ok (some s)
  | _ => Except.error "TypeError"

/-- Decode a JSON number field. -/
def JVal.asNat : JVal → Except String Nat
  | JVal.nat n => Except.ok n
  | _ => Except.error "TypeError"

/-- Decode a JSON boolean field. -/
def JVal.asBool : JVal → Except String Bool
  | JVal.bool b => Except.ok b
  | _ => Except.error "TypeError"

/-- Decode a JSON array field. -/
def JVal.asArr : JVal → Except String (List JVal)
  | JVal.arr xs => Except.ok xs
  | _ => Except.error "TypeError"

/-- Deserializer `Page.fromJson` (src/page.py lines 50-68): reads the six persisted
fields and calls the constructor (so `isProcessed` restarts at `false`). -/
def Page.fromJson (chapter : Chapter) (jsonData : JVal) : Except String Page := do
  let num ← (← jsonData.lookupKey "num").asNat
  let pageUrl ← (← jsonData.lookupKey "pageUrl").asStr
  let imageUrl ← (← jsonData.lookupKey "imageUrl").asOptStr
  let filePath ← (← jsonData.lookupKey "filePath").asOptStr
  let filename ← (← jsonData.lookupKey "filename").asOptStr
  let isDownloaded ← (← jsonData.lookupKey "isDownloaded").asBool
  return Page.make chapter num pageUrl imageUrl filePath filename isDownloaded

/-- Deserializer `Chapter.fromJson` (src/chapter.py lines 45-69): builds the chapter
without pages first, then instantiates the pages against it. -/
def Chapter.fromJson (manga : Manga) (jsonData : JVal) : Except String Chapter := do
  let num ← (← jsonData.lookupKey "num").asNat
  let url ← (← jsonData.lookupKey "url").asStr
  let title ← (← jsonData.lookupKey "title").asOptStr
  let chapter := Chapter.make manga num url title []
  let pagesJson ← (← jsonData.lookupKey "pages").asArr
  let pages ← pagesJson.mapM (Page.fromJson chapter)
  return { chapter with pages := pages }

/-- Deserializer `Manga.fromJson` (src/manga.py lines 67-90): builds the manga without
chapters first, then instantiates the chapters against it. -/
def Manga.fromJson (jsonData : JVal) : Except String Manga := do
  let url ← (← jsonData.lookupKey "url").asStr
  let title ← (← jsonData.lookupKey "title").asOptStr
  let manga := Manga.make url title []
  let chaptersJson ← (← jsonData.lookupKey "chapters").asArr
  let chapters ← chaptersJson.mapM (Chapter.fromJson manga)
  return { manga with chapters := chapters }

/-! ### Directory names -/

/-- The fixed set of filesystem-unsafe characters
(`invalidFilenameChars = '<>:"/\\|?*.'`, src/manga.py line 112). -/
def invalidFilenameChars : List Char :=
  ['<', '>', ':', '"', '/', '\\', '|', '?', '*', '.']

/-- One `str.replace(invalidChar, '_')` step for a single-character
pattern: every occurrence of `c` becomes an underscore. -/
def replaceChar (s : List Char) (c : Char) : List Char :=
  s.map (fun x => if x = c then '_' else x)

/-- The title-sanitization loop of `Manga.directoryName`
(src/manga.py lines 111-114): successive `replace` calls, one per
invalid character. -/
def sanitizeTitle (t : String) : String :=
  String.mk (invalidFilenameChars.foldl replaceChar t.data)

/-- The `Manga.directoryName` property (src/manga.py lines 96-119).
Python properties on mutable objects become value-and-new-state pairs:
the first component is the returned value (`None` when the title is
`None`), the second the manga with its `_directoryName` cache updated. -/
def Manga.directoryName (m : Manga) : Option String × Manga :=
  match m.title with
  | none => (none, { m with dirCache := none })
  | some t =>
    match m.dirCache with
    | some d => (some d, m)
    | none => (some (sanitizeTitle t), { m with dirCache := some (sanitizeTitle t) })

/-- The guard at the top of `Manga.save` (src/manga.py lines 293-294):
raises `AttributeError('Directory name not found.')` when the
`directoryName` property yields `None`.  The file I/O that follows is not
modelled. -/
def Manga.saveCheck (m : Manga) : Except String Unit :=
  if (m.directoryName).fst = none then Except.error "Directory name not found."
  else Except.ok ()

/-! ### Cache reconciliation (`Manga.updateFromCache`) -/

/-- The first loop of `Manga.updateFromCache` (src/manga.py lines
249-257): for a fresh chapter, the first cached chapter with the same
`num` (the inner loop breaks at the first match) overwrites its `url`,
`title` and `pages`. -/
def mergeChapter (cachedChapters : List Chapter) (f : Chapter) : Chapter :=
  match cachedChapters.find? (fun c => c.num = f.num) with
  | some c => { f with url := c.url, title := c.title, pages := c.pages }
  | none => f

/-- The second loop of `Manga.updateFromCache` (src/manga.py lines
259-264): each cached chapter whose `num` is absent from the (growing)
fresh list is appended to it. -/
def appendMissing (freshChapters cachedChapters : List Chapter) : List Chapter :=
  cachedChapters.foldl
    (fun acc c => if acc.any (fun f => f.num = c.num) then acc else acc ++ [c])
    freshChapters

/-- The sort step `self.chapters.sort(key=lambda chapter: chapter.num)`
(src/manga.py line 267): an ascending stable sort by `num`.  Modelled by
insertion sort (extensionally equal on any list; the claims under proof
additionally assume distinct `num`s, where every stable ascending sort
agrees). -/
def sortChapters (l : List Chapter) : List Chapter :=
  List.insertionSort (fun a b => a.num ≤ b.num) l

/-- The parent-relink loop of `Manga.updateFromCache` (src/manga.py lines
269-273): `chapter.setParent(self)` copies the (already updated) manga
title into `chapter.mangaTitle` (src/chapter.py lines 194-202), and
`page.setParent(chapter)` copies `chapter.manga.title` and `chapter.num`
into the page (src/page.py lines 155-164). -/
def relinkChapter (mangaTitle : Option String) (c : Chapter) : Chapter :=
  { c with mangaTitle := mangaTitle,
           pages := c.pages.map
             (fun p => { p with mangaTitle := mangaTitle, chapterNum := c.num }) }

/-- Reconciliation `Manga.updateFromCache` (src/manga.py lines 226-275), after the cached
manga has been loaded: adopt the cached title, overwrite matching fresh
chapters from the cache, append cache-only chapters, sort by `num`, and
re-establish parent links. -/
def Manga.updateFromCache (fresh cached : Manga) : Manga :=
  let newTitle := cached.title
  let merged := fresh.chapters.map (mergeChapter cached.chapters)
  let appended := appendMissing merged cached.chapters
  let sorted := sortChapters appended
  { fresh with title := newTitle, chapters := sorted.map (relinkChapter newTitle) }

/-! ### Chapter status predicates -/

/-- Predicate `Chapter.isDownloaded` (src/chapter.py lines 114-129): title set, at
least one page, and every page downloaded. -/
def Chapter.isDownloaded (c : Chapter) : Bool :=
  if c.title = none then false
  else if c.pages.length = 0 then false
  else c.pages.all (fun p => p.isDownloaded)

/-- Predicate `Chapter.isProcessed` (src/chapter.py lines 131-140): every page
either downloaded or processed. -/
def Chapter.isProcessed (c : Chapter) : Bool :=
  c.pages.all (fun p => p.isDownloaded || p.isProcessed)

/-! ### Image filenames (`Page.getImageFilename`) -/

/-- Python `f'{n:04}'`: the decimal digits zero-padded on the left to a
minimum width of four. -/
def pad4 (n : Nat) : String :=
  let s := toString n
  if s.length < 4 then String.mk (List.replicate (4 - s.length) '0') ++ s else s

/-- Python `url.rsplit('.', 1)[-1]`: the (possibly empty) suffix after
the last dot — the longest dot-free suffix. -/
def extAfterLastDot (u : String) : String :=
  String.mk ((u.data.reverse.takeWhile (fun c => c ≠ '.')).reverse)

/-- The allowed image extensions (`validExts`, src/page.py line 139). -/
def validExts : List String := ["png", "jpg", "jpeg"]

/-- Filename derivation `Page.getImageFilename` (src/page.py lines 112-149): `AttributeError`
when the image URL is missing, `ValueError` when it has no dot or an
extension outside `validExts`; otherwise the zero-padded page number plus
the extension. -/
def Page.getImageFilename (p : Page) : Except String String :=
  match p.imageUrl with
  | none => Except.error "Image URL not found."
  | some u =>
    if '.' ∉ u.data then Except.error "Image URL is not a valid image type."
    else
      let ext := extAfterLastDot u
      if ext ∈ validExts then Except.ok (pad4 p.num ++ "." ++ ext)
      else Except.error "Image URL is not a valid image type."

/-! ### Downloading a page (`Page.downloadImage`, `MangaCrawler.processPage`) -/

/-- Model of `os.path.join` for the two-component joins used here. -/
def pathJoin (a b : String) : String := a ++ "/" ++ b

/-- The lazy filename resolution inside `Page.downloadImage`
(src/page.py lines 204-205): `if self.filename is None:
self.filename = self.getImageFilename()`, which may raise. -/
def resolveFilename (p : Page) : Except String Page :=
  match p.filename with
  | some _ => Except.ok p
  | none =>
    match p.getImageFilename with
    | Except.ok fn => Except.ok { p with filename := some fn }
    | Except.error e => Except.error e

/-- Download step `Page.downloadImage` (src/page.py lines 193-232).  The parent
directory names (properties of the parent manga/chapter resolved through
the weakrefs) and the network outcome (`Downloader.downloadImage`
returning an optional error) are oracle parameters.  Returns the page
state after the call together with the raised error, if any; mutations
made before a raise (the lazily resolved `filename`) persist.
`os.path.abspath` is modelled as the identity (no working-directory
state in the embedding). -/
def Page.downloadImage (outputDir : String)
    (mangaDirName chapterDirName : Option String) (netErr : Option String)
    (p : Page) : Page × Option String :=
  match p.imageUrl with
  | none => (p, some "Image URL not found.")
  | some _ =>
    match resolveFilename p with
    | Except.error e => (p, some e)
    | Except.ok p1 =>
      match mangaDirName with
      | none => (p1, some "Manga directory name not found.")
      | some mdn =>
        match chapterDirName with
        | none => (p1, some "Chapter directory name not found.")
        | some cdn =>
          let outputPath :=
            pathJoin (pathJoin (pathJoin outputDir mdn) cdn) (p1.filename.getD "")
          match netErr with
          | some e => (p1, some e)
          | none => ({ p1 with filePath := some outputPath, isDownloaded := true }, none)

/-- Worker body `MangaCrawler.processPage` (src/crawl.py lines 359-393): skip an
already-downloaded page; otherwise attempt the download, catching any
error and recording the page in `_failedPages` (the returned flag);
in every case the page ends with `isProcessed = true`.  (The trailing
conditional cache save inspects the shared parent chapter and is
orthogonal to the page's own state.) -/
def processPage (outputDir : String)
    (mangaDirName chapterDirName : Option String) (netErr : Option String)
    (p : Page) : Page × Bool :=
  if p.isDownloaded then ({ p with isProcessed := true }, false)
  else
    match p.downloadImage outputDir mangaDirName chapterDirName netErr with
    | (p1, some _) => ({ p1 with isProcessed := true }, true)
    | (p1, none) => ({ p1 with isProcessed := true }, false)

/-! ### Processing a chapter (`MangaCrawler.processChapter`) -/

/-- The observable outcome of one `MangaCrawler.processChapter` call:
the chapter's state afterwards, the pages put on the page queue, whether
`chapter.fetch()` was attempted, whether the chapter was recorded in
`_failedChapters`, and whether the cache-save at the end ran. -/
structure ProcessChapterResult where
  chapter : Chapter
  enqueuedPages : List Page
  fetchAttempted : Bool
  chapterFailed : Bool
  savedCache : Bool
deriving DecidableEq, Repr

/-- Worker body `MangaCrawler.processChapter` (src/crawl.py lines 284-330) with the
kill event unset.  The fetch outcome is an oracle: on success
`chapter.fetch` runs `updateWithSoup` (src/chapter.py lines 233-257),
setting the parsed title and pages. -/
def processChapter (fetchOutcome : Except String (String × List Page))
    (ch : Chapter) : ProcessChapterResult :=
  if ch.isDownloaded then
    { chapter := ch, enqueuedPages := [], fetchAttempted := false,
      chapterFailed := false, savedCache := false }
  else if ch.pages.length = 0 ∨ ch.title = none then
    match fetchOutcome with
    | Except.ok (t, ps) =>
      let ch1 := { ch with title := some t, pages := ps }
      { chapter := ch1, enqueuedPages := ch1.pages, fetchAttempted := true,
        chapterFailed := false, savedCache := true }
    | Except.error _ =>
      { chapter := ch, enqueuedPages := [], fetchAttempted := true,
        chapterFailed := true, savedCache := false }
  else
    { chapter := ch, enqueuedPages := ch.pages, fetchAttempted := false,
      chapterFailed := false, savedCache := true }

/-! ### Derived notions used by the statements -/

/-- The list of chapter sequence numbers, in list order. -/
def nums (l : List Chapter) : List Nat := l.map (fun c => c.num)

/-- The keys of a serialized JSON object (empty for non-objects). -/
def jsonKeys : JVal → List String
  | JVal.obj kvs => kvs.map Prod.fst
  | _ => []

/-- What one `fromJson ∘ toDict` round trip does to a page: the parent
links are re-derived from the new parent chapter and `isProcessed`
restarts at `false`; all six persisted fields are kept. -/
def scrubPage (chapterNum : Nat) (mangaTitle : Option String) (p : Page) : Page :=
  { p with chapterNum := chapterNum, mangaTitle := mangaTitle, isProcessed := false }

/-- What one `fromJson ∘ toDict` round trip does to a chapter. -/
def scrubChapter (mangaTitle : Option String) (c : Chapter) : Chapter :=
  { c with mangaTitle := mangaTitle, dirCache := none,
           pages := c.pages.map (scrubPage c.num mangaTitle) }

/-- What one `fromJson ∘ toDict` round trip does to a manga. -/
def scrubManga (m : Manga) : Manga :=
  { m with dirCache := none, chapters := m.chapters.map (scrubChapter m.title) }

/-- The page fields preserved by serialization (the persisted six). -/
def PagePres (p q : Page) : Prop :=
  q.num = p.num ∧ q.pageUrl = p.pageUrl ∧ q.imageUrl = p.imageUrl ∧
  q.filePath = p.filePath ∧ q.filename = p.filename ∧ q.isDownloaded = p.isDownloaded

/-- The chapter fields preserved by serialization, with its page list
kept at the same length and order. -/
def ChapterPres (c d : Chapter) : Prop :=
  d.num = c.num ∧ d.url = c.url ∧ d.title = c.title ∧
  List.Forall₂ PagePres c.pages d.pages

/-- The manga fields preserved by serialization, with its chapter list
kept at the same length and order. -/
def MangaPres (m n : Manga) : Prop :=
  n.url = m.url ∧ n.title = m.title ∧ List.Forall₂ ChapterPres m.chapters n.chapters

/-- The denormalized-copy consistency every cached manga loaded through
`Manga.fromJson` enjoys: each chapter's `mangaTitle` copy matches the
manga's title, and each page's copies match its chapter. -/
def Manga.WF (m : Manga) : Prop :=
  ∀ c ∈ m.chapters, c.mangaTitle = m.title ∧
    ∀ p ∈ c.pages, p.mangaTitle = m.title ∧ p.chapterNum = c.num

instance (m : Manga) : Decidable (Manga.WF m) := by
  unfold Manga.WF; infer_instance

instance : IsTotal Chapter (fun a b => a.num ≤ b.num) :=
  ⟨fun a b => Nat.le_total a.num b.num⟩

instance : IsTrans Chapter (fun a b => a.num ≤ b.num) :=
  ⟨fun _ _ _ h1 h2 => Nat.le_trans h1 h2⟩

/-! ### Concrete fixtures (used by witnesses and counterexamples) -/

/-- A small manga used as parent for fixture chapters. -/
def mEx : Manga := Manga.make "http://m" (some "T") []

/-- A fixture chapter. -/
def chEx : Chapter := Chapter.make mEx 1 "http://c" (some "Ch") []

/-- A fixture page whose image URL ends in `.jpeg`, number 7. -/
def pgJpeg7 : Page := Page.make chEx 7 "http://p7" (some "http://img/x.jpeg") none none false

/-- A fixture page whose image URL has a `.gif` extension. -/
def pgGif : Page := Page.make chEx 2 "http://p2" (some "http://img/y.gif") none none false

/-- A fixture page that is already downloaded. -/
def pgDone : Page :=
  Page.make chEx 1 "http://p1" (some "http://img/x.jpg") (some "/a/0001.jpg")
    (some "0001.jpg") true

/-- A fixture chapter that is complete (title set, one page, downloaded). -/
def chDone : Chapter := { chEx with pages := [pgDone] }

/-- Fresh fixture chapter 1 (skeleton). -/
def chF1 : Chapter :=
  { mangaTitle := some "F", num := 1, url := "c1f", title := none,
    dirCache := none, pages := [] }

/-- Fresh fixture chapter 2 (skeleton). -/
def chF2 : Chapter :=
  { mangaTitle := some "F", num := 2, url := "c2f", title := none,
    dirCache := none, pages := [] }

/-- A fresh fixture manga with chapter numbers 1 and 2. -/
def freshW : Manga :=
  { url := "http://w", title := some "F", chapters := [chF1, chF2], dirCache := none }

/-- A cached fixture page belonging to chapter 2 of `cachedW`. -/
def pgCached : Page :=
  { chapterNum := 2, mangaTitle := some "C", num := 1, pageUrl := "pp",
    imageUrl := some "http://img/c.jpg", filePath := none, filename := none,
    isDownloaded := true, isProcessed := false }

/-- Cached fixture chapter 2, carrying a downloaded page. -/
def chC2 : Chapter :=
  { mangaTitle := some "C", num := 2, url := "c2c", title := some "Ch2",
    dirCache := none, pages := [pgCached] }

/-- Cached fixture chapter 3. -/
def chC3 : Chapter :=
  { mangaTitle := some "C", num := 3, url := "c3c", title := some "Ch3",
    dirCache := none, pages := [] }

/-- A cached fixture manga with chapter numbers 2 and 3. -/
def cachedW : Manga :=
  { url := "http://w", title := some "C", chapters := [chC2, chC3], dirCache := none }

/-- A fresh fixture manga whose title was set by the fetch. -/
def freshT : Manga := { url := "u", title := some "Fresh Title", chapters := [], dirCache := none }

/-- A cached fixture manga with a different title. -/
def cachedT : Manga := { url := "u", title := some "Cached Title", chapters := [], dirCache := none }

/-- A fixture manga with no title. -/
def mNoTitle : Manga := { url := "u", title := none, chapters := [], dirCache := none }

/-- A fixture manga whose title contains filesystem-unsafe characters. -/
def mUnsafe : Manga := { url := "u", title := some "A<B.C", chapters := [], dirCache := none }

/-! ## Supporting lemmas -/

/-- The three-condition characterization of chapter completeness. -/
lemma Chapter.isDownloaded_iff (c : Chapter) :
    c.isDownloaded = true ↔
      c.title ≠ none ∧ c.pages ≠ [] ∧ ∀ p ∈ c.pages, p.isDownloaded = true := by
  unfold Chapter.isDownloaded
  split_ifs with h1 h2
  · simp [h1]
  · have hnil : c.pages = [] := List.length_eq_zero.mp h2
    simp [hnil]
  · constructor
    · intro hall
      refine ⟨h1, fun hnil => h2 (by simp [hnil]), fun p hp => ?_⟩
      exact List.all_eq_true.mp hall p hp
    · rintro ⟨-, -, hp⟩
      exact List.all_eq_true.mpr hp

/-- Successively replacing each character of a list by an underscore is
the pointwise replacement of every character in the list (the
replacement character is a fixed point of every step). -/
lemma foldl_replaceChar : ∀ (L : List Char) (s : List Char),
    L.foldl replaceChar s = s.map (fun c => if c ∈ L then '_' else c)
  | [], s => by simp
  | a :: L, s => by
    rw [List.foldl_cons, foldl_replaceChar L (replaceChar s a)]
    unfold replaceChar
    rw [List.map_map]
    apply List.map_congr_left
    intro x _
    by_cases hx : x = a
    · subst hx
      simp [List.mem_cons]
    · simp [Function.comp, hx, List.mem_cons]

/-- A successful filename resolution step never touches the downloaded
flag (it only fills in `filename`). -/
lemma resolveFilename_ok_isDownloaded {p q : Page} (h : resolveFilename p = Except.ok q) :
    q.isDownloaded = p.isDownloaded := by
  unfold resolveFilename at h
  cases hfn : p.filename with
  | some fn =>
    rw [hfn] at h
    injection h with h1
    subst h1; rfl
  | none =>
    rw [hfn] at h
    cases hgf : p.getImageFilename with
    | ok fn =>
      rw [hgf] at h
      injection h with h1
      subst h1; rfl
    | error e => rw [hgf] at h; exact Except.noConfusion h

/-- Any raising path of `downloadImage` leaves the downloaded flag as it
was: it is set only after a fully successful download. -/
lemma downloadImage_error_isDownloaded (outputDir : String)
    (mdn cdn netErr : Option String) {p p1 : Page} {e : String}
    (h : p.downloadImage outputDir mdn cdn netErr = (p1, some e)) :
    p1.isDownloaded = p.isDownloaded := by
  unfold Page.downloadImage at h
  cases him : p.imageUrl with
  | none =>
    rw [him] at h
    injection h with h1 h2
    subst h1; rfl
  | some u =>
    rw [him] at h
    cases hrf : resolveFilename p with
    | error e2 =>
      rw [hrf] at h
      injection h with h1 h2
      subst h1; rfl
    | ok q =>
      rw [hrf] at h
      have hq := resolveFilename_ok_isDownloaded hrf
      cases mdn with
      | none => injection h with h1 h2; subst h1; exact hq
      | some mdnv =>
        cases cdn with
        | none => injection h with h1 h2; subst h1; exact hq
        | some cdnv =>
          cases netErr with
          | some nev => injection h with h1 h2; subst h1; exact hq
          | none => injection h with h1 h2; exact Option.noConfusion h2

/-- With a failing network oracle, `downloadImage` always raises. -/
lemma downloadImage_some_netErr_fails (outputDir : String) (mdn cdn : Option String)
    (e : String) (p : Page) :
    (p.downloadImage outputDir mdn cdn (some e)).2.isSome = true := by
  unfold Page.downloadImage
  cases p.imageUrl with
  | none => rfl
  | some u =>
    cases resolveFilename p with
    | error e2 => rfl
    | ok q =>
      cases mdn with
      | none => rfl
      | some mdnv =>
        cases cdn with
        | none => rfl
        | some cdnv => rfl

/-- A failed filename resolution makes `downloadImage` raise that error
with the page unchanged. -/
lemma downloadImage_of_resolve_error (outputDir : String)
    (mdn cdn netErr : Option String) {p : Page} {e : String} (u : String)
    (him : p.imageUrl = some u) (hrf : resolveFilename p = Except.error e) :
    p.downloadImage outputDir mdn cdn netErr = (p, some e) := by
  unfold Page.downloadImage
  rw [him, hrf]

/-- Binding a successful `Except` computation applies the continuation. -/
lemma okBind {ε α β : Type} (a : α) (f : α → Except ε β) :
    (Except.ok a : Except ε α) >>= f = f a := rfl

/-- Mapping over a successful `Except` computation applies the function. -/
lemma okMap {ε α β : Type} (a : α) (f : α → β) :
    f <$> (Except.ok a : Except ε α) = Except.ok (f a) := rfl

/-- Inversion of a successful `Except` bind. -/
lemma exceptBindOkInv {ε α β : Type} {x : Except ε α} {f : α → Except ε β} {b : β}
    (h : x >>= f = Except.ok b) : ∃ a, x = Except.ok a ∧ f a = Except.ok b := by
  cases x with
  | error e => exact Except.noConfusion h
  | ok a => exact ⟨a, rfl, h⟩

/-- Decoding an encoded optional string gives it back. -/
lemma asOptStr_optStr (o : Option String) : (optStr o).asOptStr = Except.ok o := by
  cases o <;> rfl

/-- Mapping `mapM` over an encoded list succeeds elementwise. -/
lemma mapM_map_ok {α β γ : Type} {t : α → β} {f : β → Except String γ} {g : α → γ} :
    ∀ (l : List α), (∀ a ∈ l, f (t a) = Except.ok (g a)) →
      (l.map t).mapM f = Except.ok (l.map g)
  | [], _ => rfl
  | a :: l, h => by
    rw [List.map_cons, List.mapM_cons, h a (List.mem_cons_self a l)]
    show (l.map t).mapM f >>= (fun xs => pure (g a :: xs)) = Except.ok ((a :: l).map g)
    rw [mapM_map_ok l (fun x hx => h x (List.mem_cons_of_mem a hx))]
    rfl

/-- A page's round trip through the cache re-derives the parent copies
from the new parent chapter and resets `isProcessed`. -/
lemma pageFromJson_toDict (c : Chapter) (p : Page) :
    Page.fromJson c p.toDict = Except.ok (scrubPage c.num c.mangaTitle p) := by
  rcases p with ⟨cn, mt, n, pu, iu, fp, fn, dl, pr⟩
  cases iu <;> cases fp <;> cases fn <;> rfl

/-- A chapter's round trip through the cache. -/
lemma chapterFromJson_toDict (m : Manga) (c : Chapter) :
    Chapter.fromJson m c.toDict = Except.ok (scrubChapter m.title c) := by
  have hpages := mapM_map_ok (t := Page.toDict)
    (f := Page.fromJson (Chapter.make m c.num c.url c.title []))
    (g := scrubPage c.num m.title) c.pages
    (fun p _ => pageFromJson_toDict (Chapter.make m c.num c.url c.title []) p)
  unfold Chapter.fromJson Chapter.toDict
  simp [Chapter.make] at hpages
  simp [JVal.lookupKey, List.find?, JVal.asNat, JVal.asStr, JVal.asArr,
    asOptStr_optStr, okBind, okMap, hpages, scrubChapter, Chapter.make]

/-- A manga's round trip through the cache. -/
lemma mangaFromJson_toDict (m : Manga) :
    Manga.fromJson m.toDict = Except.ok (scrubManga m) := by
  have hch := mapM_map_ok (t := Chapter.toDict)
    (f := Chapter.fromJson (Manga.make m.url m.title []))
    (g := scrubChapter m.title) m.chapters
    (fun c _ => chapterFromJson_toDict (Manga.make m.url m.title []) c)
  unfold Manga.fromJson Manga.toDict
  simp [Manga.make] at hch
  simp [JVal.lookupKey, List.find?, JVal.asStr, JVal.asArr,
    asOptStr_optStr, okBind, okMap, hch, scrubManga, Manga.make]

/-- Scrubbing preserves the six persisted page fields. -/
lemma pagePres_scrub (cn : Nat) (mt : Option String) (p : Page) :
    PagePres p (scrubPage cn mt p) := ⟨rfl, rfl, rfl, rfl, rfl, rfl⟩

/-- Scrubbing preserves the persisted chapter fields and the page list. -/
lemma chapterPres_scrub (mt : Option String) (c : Chapter) :
    ChapterPres c (scrubChapter mt c) := by
  refine ⟨rfl, rfl, rfl, ?_⟩
  rw [scrubChapter]
  rw [List.forall₂_map_right_iff]
  exact List.forall₂_same.mpr (fun p _ => pagePres_scrub c.num mt p)

/-- Scrubbing preserves the persisted manga fields and the chapter list. -/
lemma mangaPres_scrub (m : Manga) : MangaPres m (scrubManga m) := by
  refine ⟨rfl, rfl, ?_⟩
  rw [scrubManga]
  rw [List.forall₂_map_right_iff]
  exact List.forall₂_same.mpr (fun c _ => chapterPres_scrub m.title c)

/-! ### Reconciliation lemmas -/

/-- The overwrite step never changes a fresh chapter's number. -/
lemma mergeChapter_num (C : List Chapter) (f : Chapter) :
    (mergeChapter C f).num = f.num := by
  unfold mergeChapter
  cases C.find? (fun c => c.num = f.num) with
  | none => rfl
  | some c => rfl

/-- The overwrite phase leaves the fresh sequence numbers unchanged. -/
lemma nums_map_merge (C F : List Chapter) :
    nums (F.map (mergeChapter C)) = nums F := by
  unfold nums
  rw [List.map_map]
  exact List.map_congr_left (fun f _ => mergeChapter_num C f)

/-- Sequence numbers of a cons. -/
lemma nums_cons (c : Chapter) (C : List Chapter) :
    nums (c :: C) = c.num :: nums C := rfl

/-- Sequence numbers of an append. -/
lemma nums_append (F G : List Chapter) :
    nums (F ++ G) = nums F ++ nums G := List.map_append _ _ _

/-- Unfolding one step of the append-missing loop. -/
lemma appendMissing_cons (F : List Chapter) (c : Chapter) (C : List Chapter) :
    appendMissing F (c :: C) =
      appendMissing (if F.any (fun f => f.num = c.num) then F else F ++ [c]) C := rfl

/-- The append-missing phase only ever appends: the accumulated list is
kept. -/
lemma mem_appendMissing_of_mem : ∀ (C F : List Chapter) (x : Chapter),
    x ∈ F → x ∈ appendMissing F C
  | [], _, _, h => h
  | c :: C, F, x, h => by
    rw [appendMissing_cons]
    by_cases hc : F.any (fun f => f.num = c.num) = true
    · rw [if_pos hc]
      exact mem_appendMissing_of_mem C F x h
    · rw [if_neg hc]
      exact mem_appendMissing_of_mem C (F ++ [c]) x (List.mem_append_left _ h)

/-- The sequence numbers after the append-missing phase are exactly the
union of the accumulated and the cached ones. -/
lemma mem_nums_appendMissing : ∀ (C F : List Chapter) (n : Nat),
    n ∈ nums (appendMissing F C) ↔ n ∈ nums F ∨ n ∈ nums C
  | [], F, n => by simp [appendMissing, nums]
  | c :: C, F, n => by
    rw [appendMissing_cons]
    by_cases hc : F.any (fun f => f.num = c.num) = true
    · rw [if_pos hc, mem_nums_appendMissing C F n]
      have hcF : c.num ∈ nums F := by
        obtain ⟨f, hf, hfe⟩ := List.any_eq_true.mp hc
        exact List.mem_map.mpr ⟨f, hf, of_decide_eq_true hfe⟩
      constructor
      · rintro (h | h)
        · exact Or.inl h
        · rw [nums_cons]
          exact Or.inr (List.mem_cons_of_mem _ h)
      · rintro (h | h)
        · exact Or.inl h
        · rw [nums_cons] at h
          rcases List.mem_cons.mp h with rfl | h2
          · exact Or.inl hcF
          · exact Or.inr h2
    · rw [if_neg hc, mem_nums_appendMissing C (F ++ [c]) n]
      simp only [nums, List.map_append, List.map_cons, List.map_nil, List.mem_append,
        List.mem_cons, List.mem_singleton]
      tauto

/-- The append-missing phase keeps the sequence numbers duplicate-free:
each appended chapter is checked against everything accumulated so far. -/
lemma nodup_nums_appendMissing : ∀ (C F : List Chapter),
    (nums F).Nodup → (nums (appendMissing F C)).Nodup
  | [], _, h => h
  | c :: C, F, h => by
    rw [appendMissing_cons]
    by_cases hc : F.any (fun f => f.num = c.num) = true
    · rw [if_pos hc]
      exact nodup_nums_appendMissing C F h
    · rw [if_neg hc]
      refine nodup_nums_appendMissing C (F ++ [c]) ?_
      rw [nums_append]
      refine List.Nodup.append h (List.nodup_singleton _) ?_
      intro n hn hn2
      rcases List.mem_cons.mp hn2 with rfl | h2
      · obtain ⟨f, hf, hfe⟩ := List.mem_map.mp hn
        exact hc (List.any_eq_true.mpr ⟨f, hf, decide_eq_true hfe⟩)
      · exact absurd h2 (List.not_mem_nil n)

/-- With duplicate-free cached numbers, the inner find-first-match loop
finds exactly the cached chapter carrying that number. -/
lemma find?_num_of_nodup : ∀ (C : List Chapter) (c : Chapter),
    (nums C).Nodup → c ∈ C → C.find? (fun x => x.num = c.num) = some c
  | [], c, _, hc => absurd hc (List.not_mem_nil c)
  | a :: C, c, hn, hc => by
    rcases List.mem_cons.mp hc with rfl | hc2
    · exact List.find?_cons_of_pos _ (decide_eq_true rfl)
    · have hne : a.num ≠ c.num := by
        intro he
        rw [nums_cons] at hn
        have hmem : c.num ∈ nums C := List.mem_map.mpr ⟨c, hc2, rfl⟩
        rw [← he] at hmem
        exact (List.nodup_cons.mp hn).1 hmem
      rw [List.find?_cons_of_neg _ (by simpa using hne)]
      rw [nums_cons] at hn
      exact find?_num_of_nodup C c (List.nodup_cons.mp hn).2 hc2

/-- Relinking never changes a chapter's number. -/
lemma nums_map_relink (t : Option String) (l : List Chapter) :
    nums (l.map (relinkChapter t)) = nums l := by
  unfold nums
  rw [List.map_map]
  rfl

/-- The sort step is a permutation of its input. -/
lemma sortChapters_perm (l : List Chapter) : List.Perm (sortChapters l) l :=
  List.perm_insertionSort _ l

/-- The sort step sorts by chapter number. -/
lemma sortChapters_sorted (l : List Chapter) :
    List.Sorted (fun a b : Chapter => a.num ≤ b.num) (sortChapters l) :=
  List.sorted_insertionSort _ l

/-- Relinking a chapter whose pages already carry the given manga title
and its own number (the shape `Manga.fromJson` produces) is the
identity on its page list. -/
lemma relink_pages_wf (t : Option String) (c0 : Chapter)
    (hwf : ∀ p ∈ c0.pages, p.mangaTitle = t ∧ p.chapterNum = c0.num) :
    (relinkChapter t c0).pages = c0.pages := by
  unfold relinkChapter
  have h : ∀ p ∈ c0.pages, ({ p with mangaTitle := t, chapterNum := c0.num } : Page) = p := by
    intro p hp
    obtain ⟨h1, h2⟩ := hwf p hp
    rw [← h1, ← h2]
  rw [List.map_congr_left h]
  simp

/-! ## C10 -/

/-- C10: a chapter whose pages list is empty is counted as fully
processed by `Chapter.isProcessed` (the settled check is vacuously true)
while `Chapter.isDownloaded` is false for the same chapter. -/
theorem emptyChapter_isProcessed_not_isDownloaded (c : Chapter) (h : c.pages = []) :
    c.isProcessed = true ∧ c.isDownloaded = false := by
  unfold Chapter.isProcessed Chapter.isDownloaded
  rw [h]
  simp

/-- C10 witness: the fixture chapter with no pages. -/
theorem emptyChapter_isProcessed_not_isDownloaded_witness :
    chEx.isProcessed = true ∧ chEx.isDownloaded = false :=
  emptyChapter_isProcessed_not_isDownloaded chEx rfl

/-! ## C4 -/

/-- C4: a complete chapter (exactly the `Chapter.isDownloaded`
predicate: title set, at least one page, all pages downloaded) is skipped
by `processChapter`: no fetch, no page enqueued, the chapter unchanged,
nothing recorded and nothing saved; and a chapter failing any of the
three conditions is not considered complete. -/
theorem processChapter_skip_if_complete (ch : Chapter)
    (fetchOutcome : Except String (String × List Page))
    (h : ch.isDownloaded = true) :
    processChapter fetchOutcome ch =
      { chapter := ch, enqueuedPages := [], fetchAttempted := false,
        chapterFailed := false, savedCache := false } ∧
    ch.title ≠ none ∧ ch.pages ≠ [] ∧ (∀ p ∈ ch.pages, p.isDownloaded = true) ∧
    ∀ c : Chapter,
      (c.title = none ∨ c.pages = [] ∨ ∃ p ∈ c.pages, p.isDownloaded = false) →
      c.isDownloaded = false := by
  obtain ⟨h1, h2, h3⟩ := (Chapter.isDownloaded_iff ch).mp h
  refine ⟨by simp [processChapter, h], h1, h2, h3, ?_⟩
  intro c hc
  cases hb : c.isDownloaded with
  | false => rfl
  | true =>
    obtain ⟨t1, t2, t3⟩ := (Chapter.isDownloaded_iff c).mp hb
    rcases hc with hc | hc | ⟨p, hp, hpd⟩
    · exact absurd hc t1
    · exact absurd hc t2
    · have hpt := t3 p hp
      rw [hpd] at hpt
      exact Bool.noConfusion hpt

/-- C4 witness: the complete fixture chapter is skipped even when the
fetch oracle would fail. -/
theorem processChapter_skip_if_complete_witness :
    chDone.isDownloaded = true ∧
    processChapter (Except.error "boom") chDone =
      { chapter := chDone, enqueuedPages := [], fetchAttempted := false,
        chapterFailed := false, savedCache := false } :=
  ⟨by decide, (processChapter_skip_if_complete chDone (Except.error "boom") (by decide)).1⟩

/-! ## C5 -/

/-- C5: `processPage` never propagates a download error (it is total and
returns in every case); whenever the page is recorded as failed its
downloaded flag is still false; with a not-yet-downloaded page and a
failing network oracle the page is recorded as failed; and on every
outcome the page's `isProcessed` flag is true on return. -/
theorem processPage_failure_isolation (outputDir : String)
    (mangaDirName chapterDirName netErr : Option String) (p : Page) :
    (processPage outputDir mangaDirName chapterDirName netErr p).1.isProcessed = true ∧
    ((processPage outputDir mangaDirName chapterDirName netErr p).2 = true →
      (processPage outputDir mangaDirName chapterDirName netErr p).1.isDownloaded = false) ∧
    (p.isDownloaded = false → ∀ e, netErr = some e →
      (processPage outputDir mangaDirName chapterDirName netErr p).2 = true) := by
  unfold processPage
  by_cases hd : p.isDownloaded = true
  · simp [hd]
  · simp only [Bool.not_eq_true] at hd
    rcases hdl : p.downloadImage outputDir mangaDirName chapterDirName netErr with ⟨p1, err⟩
    cases err with
    | some e1 =>
      have hpres : p1.isDownloaded = false := by
        rw [downloadImage_error_isDownloaded outputDir mangaDirName chapterDirName netErr hdl,
          hd]
      simp [hd, hdl, hpres]
    | none =>
      refine ⟨by simp [hd, hdl], by simp [hd, hdl], fun _ e he => ?_⟩
      subst he
      have hfail := downloadImage_some_netErr_fails outputDir mangaDirName chapterDirName e p
      rw [hdl] at hfail
      exact Bool.noConfusion hfail

/-- C5 witness: a not-yet-downloaded page with a failing network oracle
is recorded as failed, stays not-downloaded, and is marked processed. -/
theorem processPage_failure_isolation_witness :
    (processPage "out" (some "M") (some "C") (some "boom") pgGif).1.isProcessed = true ∧
    (processPage "out" (some "M") (some "C") (some "boom") pgGif).2 = true ∧
    (processPage "out" (some "M") (some "C") (some "boom") pgGif).1.isDownloaded = false := by
  have h := processPage_failure_isolation "out" (some "M") (some "C") (some "boom") pgGif
  have hfail := h.2.2 (by rfl) "boom" rfl
  exact ⟨h.1, hfail, h.2.1 hfail⟩

/-! ## C6 -/

/-- The suffix after the last dot of a string ending in `.jpeg` is
`jpeg`. -/
lemma extAfterLastDot_append_jpeg (v : String) :
    extAfterLastDot (v ++ ".jpeg") = "jpeg" := by
  unfold extAfterLastDot
  rw [String.data_append]
  have hj : (".jpeg" : String).data = ['.', 'j', 'p', 'e', 'g'] := rfl
  rw [hj, List.reverse_append]
  simp [List.takeWhile_cons]

/-- A string ending in `.jpeg` contains a dot. -/
lemma dot_mem_append_jpeg (v : String) : '.' ∈ (v ++ ".jpeg").data := by
  rw [String.data_append]
  exact List.mem_append_right _ (by decide)

/-- C6: a page whose image URL ends in `.jpeg` with sequence number 7
gets the filename `0007.jpeg`; a page whose image URL has no dot, or a
trailing extension outside png/jpg/jpeg, makes `getImageFilename` raise,
and processing such a page records it as failed with the downloaded flag
still false. -/
theorem getImageFilename_derivation :
    (∀ (p : Page) (v : String), p.imageUrl = some (v ++ ".jpeg") → p.num = 7 →
      p.getImageFilename = Except.ok "0007.jpeg") ∧
    (∀ (p : Page) (u : String), p.imageUrl = some u →
      ('.' ∉ u.data ∨ extAfterLastDot u ∉ validExts) →
      ∃ e, p.getImageFilename = Except.error e) ∧
    (∀ (outputDir : String) (mdn cdn netErr : Option String) (p : Page) (u : String),
      p.isDownloaded = false → p.filename = none → p.imageUrl = some u →
      ('.' ∉ u.data ∨ extAfterLastDot u ∉ validExts) →
      (processPage outputDir mdn cdn netErr p).2 = true ∧
      (processPage outputDir mdn cdn netErr p).1.isDownloaded = false) := by
  have hbad : ∀ (p : Page) (u : String), p.imageUrl = some u →
      ('.' ∉ u.data ∨ extAfterLastDot u ∉ validExts) →
      ∃ e, p.getImageFilename = Except.error e := by
    intro p u him hb
    unfold Page.getImageFilename
    rw [him]
    dsimp only
    by_cases hnd : '.' ∉ u.data
    · rw [if_pos hnd]; exact ⟨_, rfl⟩
    · rw [if_neg hnd]
      rcases hb with hb | hb
      · exact absurd hb hnd
      · rw [if_neg hb]; exact ⟨_, rfl⟩
  refine ⟨?_, hbad, ?_⟩
  · intro p v him h7
    unfold Page.getImageFilename
    rw [him]
    dsimp only
    rw [if_neg (fun hn => hn (dot_mem_append_jpeg v))]
    rw [extAfterLastDot_append_jpeg]
    rw [if_pos (by decide : ("jpeg" : String) ∈ validExts)]
    rw [h7]
    exact congrArg Except.ok (by decide)
  · intro outputDir mdn cdn netErr p u hd hfn him hb
    obtain ⟨e, he⟩ := hbad p u him hb
    have hrf : resolveFilename p = Except.error e := by
      unfold resolveFilename
      rw [hfn, he]
    have hdl := downloadImage_of_resolve_error outputDir mdn cdn netErr u him hrf
    unfold processPage
    simp [hd, hdl]

/-- C6 witness: the fixture `.jpeg` page with number 7 gets `0007.jpeg`;
the fixture `.gif` page is recorded failed and stays not-downloaded. -/
theorem getImageFilename_derivation_witness :
    pgJpeg7.getImageFilename = Except.ok "0007.jpeg" ∧
    (processPage "out" (some "M") (some "C") none pgGif).2 = true ∧
    (processPage "out" (some "M") (some "C") none pgGif).1.isDownloaded = false := by
  refine ⟨?_, ?_⟩
  · exact getImageFilename_derivation.1 pgJpeg7 "http://img/x" (by decide) rfl
  · exact getImageFilename_derivation.2.2 "out" (some "M") (some "C") none pgGif
      "http://img/y.gif" rfl rfl rfl (Or.inr (by decide))

/-! ## C3 (corrected) -/

/-- C3 counterexample: the fresh manga's title is set by the fetch, yet
`updateFromCache` replaces it with the cached title. -/
theorem updateFromCache_title_counterexample :
    freshT.title = some "Fresh Title" ∧
    (freshT.updateFromCache cachedT).title = some "Cached Title" ∧
    (freshT.updateFromCache cachedT).title ≠ freshT.title :=
  ⟨rfl, by decide, by decide⟩

/-- C3 (amended): `updateFromCache` unconditionally adopts the cached
manga's title, whether or not the fresh title was already set
(src/manga.py line 247). -/
theorem updateFromCache_title_unconditional (fresh cached : Manga) :
    (fresh.updateFromCache cached).title = cached.title := rfl

/-- C3 witness: the amended rule evaluated on the fixture mangas. -/
theorem updateFromCache_title_unconditional_witness :
    (freshT.updateFromCache cachedT).title = cachedT.title :=
  updateFromCache_title_unconditional freshT cachedT

/-! ## C7 (corrected) -/

/-- C7 counterexample: with an absent title, accessing the
`directoryName` property returns `None` (it is defined, not a raise);
the `AttributeError` is raised later, by the guard inside `Manga.save`. -/
theorem directoryName_none_counterexample :
    Manga.directoryName mNoTitle = (none, mNoTitle) ∧
    Manga.saveCheck mNoTitle = Except.error "Directory name not found." :=
  ⟨rfl, rfl⟩

/-- C7 (amended): when the title is `None` the property returns `None`
and `Manga.save` raises; when the title is set, the property returns the
title with every character of the fixed unsafe set replaced by an
underscore, computes it once, caches it, and a second access returns the
cached value unchanged. -/
theorem directoryName_amended :
    (∀ m : Manga, m.title = none →
      m.directoryName = (none, { m with dirCache := none }) ∧
      m.saveCheck = Except.error "Directory name not found.") ∧
    (∀ (m : Manga) (t : String), m.title = some t → m.dirCache = none →
      m.directoryName =
        (some (sanitizeTitle t), { m with dirCache := some (sanitizeTitle t) }) ∧
      Manga.directoryName { m with dirCache := some (sanitizeTitle t) } =
        (some (sanitizeTitle t), { m with dirCache := some (sanitizeTitle t) })) ∧
    (∀ t : String, sanitizeTitle t =
      String.mk (t.data.map (fun c => if c ∈ invalidFilenameChars then '_' else c))) := by
  refine ⟨?_, ?_, ?_⟩
  · intro m h
    constructor
    · simp [Manga.directoryName, h]
    · simp [Manga.saveCheck, Manga.directoryName, h]
  · intro m t h hd
    constructor
    · simp [Manga.directoryName, h, hd]
    · simp [Manga.directoryName, h]
  · intro t
    unfold sanitizeTitle
    rw [foldl_replaceChar]

/-- C7 witness: a title with unsafe characters is sanitized, cached, and
returned unchanged by a second access. -/
theorem directoryName_amended_witness :
    mUnsafe.directoryName = (some "A_B_C", { mUnsafe with dirCache := some "A_B_C" }) ∧
    Manga.directoryName { mUnsafe with dirCache := some "A_B_C" } =
      (some "A_B_C", { mUnsafe with dirCache := some "A_B_C" }) := by
  have h := directoryName_amended.2.1 mUnsafe "A<B.C" rfl rfl
  have hs : sanitizeTitle "A<B.C" = "A_B_C" := by decide
  rw [hs] at h
  exact h

/-! ## C1 -/

/-- C1: merge completeness — when the fresh and cached chapter lists
each carry duplicate-free sequence numbers, the reconciled chapter list
of `updateFromCache` carries exactly the union of the two number sets,
without duplicates, sorted ascending by `num`. -/
theorem updateFromCache_merge_completeness (F C : Manga)
    (hF : (nums F.chapters).Nodup) (hC : (nums C.chapters).Nodup) :
    (∀ n, n ∈ nums (F.updateFromCache C).chapters ↔
      n ∈ nums F.chapters ∨ n ∈ nums C.chapters) ∧
    (nums (F.updateFromCache C).chapters).Nodup ∧
    List.Sorted (fun a b => a ≤ b) (nums (F.updateFromCache C).chapters) := by
  have hch : (F.updateFromCache C).chapters =
      (sortChapters (appendMissing (F.chapters.map (mergeChapter C.chapters))
        C.chapters)).map (relinkChapter C.title) := rfl
  have hperm := sortChapters_perm
    (appendMissing (F.chapters.map (mergeChapter C.chapters)) C.chapters)
  refine ⟨?_, ?_, ?_⟩
  · intro n
    rw [hch, nums_map_relink]
    have hmemiff : n ∈ nums (sortChapters (appendMissing
        (F.chapters.map (mergeChapter C.chapters)) C.chapters)) ↔
        n ∈ nums (appendMissing (F.chapters.map (mergeChapter C.chapters)) C.chapters) :=
      List.Perm.mem_iff (List.Perm.map _ hperm)
    rw [hmemiff, mem_nums_appendMissing, nums_map_merge]
  · rw [hch, nums_map_relink]
    have hnodA : (nums (appendMissing (F.chapters.map (mergeChapter C.chapters))
        C.chapters)).Nodup := by
      apply nodup_nums_appendMissing
      rw [nums_map_merge]
      exact hF
    exact (List.Perm.nodup_iff (List.Perm.map _ hperm)).mpr hnodA
  · rw [hch]
    have hs := sortChapters_sorted
      (appendMissing (F.chapters.map (mergeChapter C.chapters)) C.chapters)
    have hs2 : List.Pairwise (fun a b : Chapter => a.num ≤ b.num)
        ((sortChapters (appendMissing (F.chapters.map (mergeChapter C.chapters))
          C.chapters)).map (relinkChapter C.title)) :=
      List.Pairwise.map _ (fun a b hab => hab) hs
    exact List.Pairwise.map _ (fun a b h => h) hs2

/-- C1 witness: reconciling fresh chapters numbered 1, 2 with cached
chapters numbered 2, 3. -/
theorem updateFromCache_merge_completeness_witness :
    (2 ∈ nums (freshW.updateFromCache cachedW).chapters ↔
      2 ∈ nums freshW.chapters ∨ 2 ∈ nums cachedW.chapters) ∧
    (nums (freshW.updateFromCache cachedW).chapters).Nodup ∧
    List.Sorted (fun a b => a ≤ b) (nums (freshW.updateFromCache cachedW).chapters) := by
  have h := updateFromCache_merge_completeness freshW cachedW (by decide) (by decide)
  exact ⟨h.1 2, h.2.1, h.2.2⟩

/-! ## C2 -/

/-- C2: merge authority — for a sequence number present in both lists
(with duplicate-free cached numbers, and a cached manga whose
denormalized parent copies are consistent, as any cached manga loaded
via `fromJson` is), the reconciled list contains a chapter with that
number whose `url`, `title`, and `pages` are exactly the cached
chapter's. -/
theorem updateFromCache_merge_authority (F C : Manga)
    (hC : (nums C.chapters).Nodup) (hWF : C.WF)
    (f c : Chapter) (hf : f ∈ F.chapters) (hc : c ∈ C.chapters)
    (hn : f.num = c.num) :
    ∃ r ∈ (F.updateFromCache C).chapters,
      r.num = c.num ∧ r.url = c.url ∧ r.title = c.title ∧ r.pages = c.pages := by
  have hfind : C.chapters.find? (fun x => x.num = f.num) = some c := by
    simp only [hn]
    exact find?_num_of_nodup C.chapters c hC hc
  have hmerge : mergeChapter C.chapters f =
      { f with url := c.url, title := c.title, pages := c.pages } := by
    unfold mergeChapter
    rw [hfind]
  refine ⟨relinkChapter C.title { f with url := c.url, title := c.title, pages := c.pages },
    List.mem_map_of_mem _ ((List.Perm.mem_iff (sortChapters_perm _)).mpr ?_),
    ?_, rfl, rfl, ?_⟩
  · rw [← hmerge]
    exact mem_appendMissing_of_mem _ _ _ (List.mem_map_of_mem _ hf)
  · exact hn
  · refine relink_pages_wf C.title _ ?_
    intro p hp
    obtain ⟨-, hpp⟩ := hWF c hc
    obtain ⟨h1, h2⟩ := hpp p hp
    exact ⟨h1, by rw [h2]; exact hn.symm⟩

/-- C2 witness: chapter number 2 exists in both fixture mangas; the
reconciled chapter carries the cached url, title and pages. -/
theorem updateFromCache_merge_authority_witness :
    ∃ r ∈ (freshW.updateFromCache cachedW).chapters,
      r.num = chC2.num ∧ r.url = chC2.url ∧ r.title = chC2.title ∧ r.pages = chC2.pages :=
  updateFromCache_merge_authority freshW cachedW (by decide) (by decide)
    chF2 chC2 (by decide) (by decide) rfl

/-! ## C8 -/

/-- C8: `isProcessed` is transient: it is false immediately after the
constructor runs (whatever the arguments), false after instantiation
from the JSON cache, and the persisted representation (`toDict`) carries
only the six persisted keys, never a processed flag. -/
theorem processed_flag_transient :
    (∀ (c : Chapter) (num : Nat) (pageUrl : String)
      (imageUrl filePath filename : Option String) (isDownloaded : Bool),
      (Page.make c num pageUrl imageUrl filePath filename isDownloaded).isProcessed = false) ∧
    (∀ (c : Chapter) (j : JVal) (p : Page),
      Page.fromJson c j = Except.ok p → p.isProcessed = false) ∧
    (∀ p : Page, jsonKeys p.toDict =
      ["num", "pageUrl", "imageUrl", "filePath", "filename", "isDownloaded"]) := by
  refine ⟨fun _ _ _ _ _ _ _ => rfl, ?_, fun p => rfl⟩
  intro c j p h
  unfold Page.fromJson at h
  obtain ⟨a1, -, h⟩ := exceptBindOkInv h
  obtain ⟨a2, -, h⟩ := exceptBindOkInv h
  obtain ⟨a3, -, h⟩ := exceptBindOkInv h
  obtain ⟨a4, -, h⟩ := exceptBindOkInv h
  obtain ⟨a5, -, h⟩ := exceptBindOkInv h
  obtain ⟨a6, -, h⟩ := exceptBindOkInv h
  obtain ⟨a7, -, h⟩ := exceptBindOkInv h
  obtain ⟨a8, -, h⟩ := exceptBindOkInv h
  obtain ⟨a9, -, h⟩ := exceptBindOkInv h
  obtain ⟨a10, -, h⟩ := exceptBindOkInv h
  obtain ⟨a11, -, h⟩ := exceptBindOkInv h
  obtain ⟨a12, -, h⟩ := exceptBindOkInv h
  injection h with h1
  subst h1
  rfl

/-- C8 witness: a concrete page loaded back from its own serialized
form has `isProcessed = false`. -/
theorem processed_flag_transient_witness :
    Page.fromJson chEx pgGif.toDict =
      Except.ok (scrubPage chEx.num chEx.mangaTitle pgGif) ∧
    (scrubPage chEx.num chEx.mangaTitle pgGif).isProcessed = false :=
  ⟨by rfl, processed_flag_transient.2.1 chEx pgGif.toDict _ (by rfl)⟩

/-! ## C9 -/

/-- C9: the serialization round trip `fromJson ∘ toDict` succeeds for
every manga and preserves its `url` and `title`, its chapter list's
length and order with each chapter's `num`, `url`, `title`, and each
page's `num`, `pageUrl`, `imageUrl`, `filePath`, `filename`, and
`isDownloaded`. -/
theorem fromJson_toDict_roundtrip (m : Manga) :
    ∃ n, Manga.fromJson m.toDict = Except.ok n ∧ MangaPres m n :=
  ⟨scrubManga m, mangaFromJson_toDict m, mangaPres_scrub m⟩

/-- C9 witness: the round trip evaluated on the cached fixture manga
(which has a chapter with a page). -/
theorem fromJson_toDict_roundtrip_witness :
    ∃ n, Manga.fromJson cachedW.toDict = Except.ok n ∧ MangaPres cachedW n :=
  fromJson_toDict_roundtrip cachedW

end MangaCrawler
